import Mathlib

/-!
# task-tracker-cli: a shallow embedding of `main.go`

The program keeps a list of tasks in `tasks.json`. Every command reads the whole
file, changes the list in memory and writes the whole list back.

Modelling decisions.

* A Go `string` is a sequence of bytes (`GoString`); `str` gives the bytes of a literal.
  Command-line arguments are arbitrary bytes, not necessarily UTF-8.
* `Task.ID` is a Go `int`; it is an `Int` here. The only arithmetic on it is
  `len(tasks) + 1`, which cannot wrap: a slice of 88-byte structs never has
  `2^63 - 1` elements.
* A `time.Time` is an instant on the wall clock together with the zone it is shown in
  (`Time`): these are what `Format` and `MarshalJSON` read. Zone offsets are whole
  minutes. The monotonic reading that `time.Now` attaches is left out: the program never
  compares or subtracts times, and JSON drops it. `time.Now()` is an input of each
  operation (`now`).
* `encoding/json` and the file system are library code. `FileState` is what
  `json.Unmarshal` makes of the bytes of the file, and a write leaves the file holding
  what `json.Unmarshal` makes of the output of `json.MarshalIndent` (`jsonTask`, after the
  documentation of `encoding/json`, `unicode/utf8` and `time`). `json.MarshalIndent` fails
  on a `[]Task` only for a timestamp whose year is outside 0..9999 or whose zone offset
  is a day or more, which neither `time.Now` nor a decoded file produces, so that branch
  of `saveTasks` has no counterpart.
* Every call that touches the file or the terminal is recorded in `World.trace`, so
  that "does not load" and "does not save" are statements about the trace.
-/

namespace TaskTracker

/-- A Go string: a sequence of bytes. -/
abbrev GoString := List UInt8

/-- The bytes (UTF-8) of a string literal of the source. -/
def str (s : String) : GoString := s.data.flatMap String.utf8EncodeChar

/-- A time zone as a `time.Time` shows it: abbreviation and offset east of UTC, in
minutes. -/
structure Zone where
  name : GoString
  offset : Int
  deriving DecidableEq, Repr

/-- A `time.Time`: the instant, in nanoseconds since the epoch, and the zone in effect
at that instant in its location. -/
structure Time where
  unixNano : Int
  zone : Zone
  deriving DecidableEq, Repr

/-- Task represents a single task with all required properties (`main.go`, 12-18). -/
structure Task where
  ID : Int
  Description : GoString
  Status : GoString
  CreatedAt : Time
  UpdatedAt : Time
  deriving DecidableEq, Repr

/-! ## The JSON codec, as far as a list of tasks goes -/

/-- A continuation byte of UTF-8. -/
def utf8Cont (b : UInt8) : Bool := 0x80 ≤ b && b ≤ 0xBF

/-- Length of the well-formed UTF-8 sequence at the head of `s`, or 0 when the head byte
does not start one (`utf8.DecodeRune` returning `RuneError` with width 1). Overlong
forms, surrogates and values above U+10FFFF are not well formed. -/
def utf8HeadLen : GoString → Nat
  | [] => 0
  | b0 :: rest =>
    if b0 < 0x80 then 1
    else if 0xC2 ≤ b0 ∧ b0 ≤ 0xDF then
      match rest with
      | b1 :: _ => if utf8Cont b1 then 2 else 0
      | _ => 0
    else if 0xE0 ≤ b0 ∧ b0 ≤ 0xEF then
      match rest with
      | b1 :: b2 :: _ =>
        if (if b0 = 0xE0 then 0xA0 else 0x80) ≤ b1 ∧ b1 ≤ (if b0 = 0xED then 0x9F else 0xBF)
            ∧ utf8Cont b2 then 3 else 0
      | _ => 0
    else if 0xF0 ≤ b0 ∧ b0 ≤ 0xF4 then
      match rest with
      | b1 :: b2 :: b3 :: _ =>
        if (if b0 = 0xF0 then 0x90 else 0x80) ≤ b1 ∧ b1 ≤ (if b0 = 0xF4 then 0x8F else 0xBF)
            ∧ utf8Cont b2 ∧ utf8Cont b3 then 4 else 0
      | _ => 0
    else 0

/-- Worker of `toValidUTF8`: `k` bytes of an accepted sequence are still to be copied. -/
def toValidUTF8.go : Nat → GoString → GoString
  | _, [] => []
  | 0, b :: rest =>
    match utf8HeadLen (b :: rest) with
    | 0 => 0xEF :: 0xBF :: 0xBD :: toValidUTF8.go 0 rest
    | n + 1 => b :: toValidUTF8.go n rest
  | k + 1, b :: rest => b :: toValidUTF8.go k rest

/-- What `json.Unmarshal` returns for the JSON string `json.Marshal` writes for `s`:
"String values encode as JSON strings coerced to valid UTF-8, replacing invalid bytes with
the Unicode replacement rune" (U+FFFD, bytes EF BF BD); escapes are undone by the
decoder. -/
def toValidUTF8 (s : GoString) : GoString := toValidUTF8.go 0 s

/-- Worker of `utf8Valid`. -/
def utf8Valid.go : Nat → GoString → Bool
  | _, [] => true
  | 0, b :: rest =>
    match utf8HeadLen (b :: rest) with
    | 0 => false
    | n + 1 => utf8Valid.go n rest
  | k + 1, _ :: rest => utf8Valid.go k rest

/-- The string consists of well-formed UTF-8 sequences only (`utf8.Valid`). -/
def utf8Valid (s : GoString) : Bool := utf8Valid.go 0 s

/-- The zone `time.Time.UnmarshalJSON` gives to an RFC 3339 text with this instant and
offset: UTC for "Z" (offset 0); the local zone when its offset at that instant is the
one written; otherwise a fixed zone without a name. -/
def decodeZone (localZone : Int → Zone) (unixNano : Int) (offset : Int) : Zone :=
  if offset = 0 then { name := str "UTC", offset := 0 }
  else if (localZone unixNano).offset = offset then localZone unixNano
  else { name := [], offset := offset }

/-- What `UnmarshalJSON` returns for the text `MarshalJSON` writes for `t`: RFC 3339 with
nanoseconds keeps the instant and the offset. -/
def jsonTime (localZone : Int → Zone) (t : Time) : Time :=
  { unixNano := t.unixNano, zone := decodeZone localZone t.unixNano t.zone.offset }

/-- What `json.Unmarshal` returns for the object `json.MarshalIndent` writes for a task. -/
def jsonTask (localZone : Int → Zone) (t : Task) : Task :=
  { ID := t.ID,
    Description := toValidUTF8 t.Description,
    Status := toValidUTF8 t.Status,
    CreatedAt := jsonTime localZone t.CreatedAt,
    UpdatedAt := jsonTime localZone t.UpdatedAt }

/-! ## The environment -/

/-- What `os.ReadFile("tasks.json")` followed by `json.Unmarshal` finds. -/
inductive FileState where
  /-- The file does not exist (`os.IsNotExist`). -/
  | missing
  /-- Reading fails with another error. -/
  | unreadable (err : GoString)
  /-- The bytes are not a JSON array of tasks. -/
  | malformed (err : GoString)
  /-- The bytes decode to this list of tasks. -/
  | holds (tasks : List Task)
  deriving DecidableEq, Repr

/-- One observable action of the program. -/
inductive Event where
  /-- A call of `os.ReadFile("tasks.json")`. -/
  | readFile
  /-- A call of `os.WriteFile("tasks.json", ..)` with the encoding of `tasks`. -/
  | writeFile (tasks : List Task)
  /-- Text sent to standard output. -/
  | print (s : GoString)
  deriving DecidableEq, Repr

/-- The environment of one run: the file, how `os.WriteFile` behaves (`none`: it
succeeds; `some (err, after)`: it fails with `err` and leaves the file as `after`), the
local time zone as a function of the instant, and the actions performed so far. -/
structure World where
  file : FileState
  writeErr : Option (GoString × FileState)
  localZone : Int → Zone
  trace : List Event

/-- Outcome of a function that may call `os.Exit`. -/
inductive Step (α : Type) where
  /-- The function returned `a`. -/
  | ok (a : α) (w : World)
  /-- The process was terminated by `os.Exit(code)`. -/
  | exit (code : Nat) (w : World)

/-- Sequencing: the continuation runs only if the process is still alive. -/
def Step.bind {α β : Type} (s : Step α) (k : α → World → Step β) : Step β :=
  match s with
  | .ok a w => k a w
  | .exit code w => .exit code w

/-- The world in which a step ended. -/
def Step.world {α : Type} : Step α → World
  | .ok _ w => w
  | .exit _ w => w

/-- Record an action. -/
def World.emit (w : World) (e : Event) : World :=
  { w with trace := w.trace ++ [e] }

/-- Model of `os.WriteFile("tasks.json", data, 0644)` where `data` encodes `tasks`;
returns the error, if any. After a successful write the file decodes to the image of
`tasks` under the codec. -/
def writeFile (tasks : List Task) (w : World) : Option GoString × World :=
  match w.writeErr with
  | none =>
    (none, { w.emit (.writeFile tasks) with file := .holds (tasks.map (jsonTask w.localZone)) })
  | some (err, after) => (some err, { w.emit (.writeFile tasks) with file := after })

/-! ## The program -/

/-- readTasks reads and parses tasks from tasks.json (`main.go`, 21-44). -/
def readTasks (w : World) : Step (List Task) :=
  let w1 := w.emit .readFile
  match w1.file with
  | .missing =>
    let w2 := w1.emit (.print (str "tasks.json not found. Creating a new file...\n"))
    -- the error of this write is dropped
    .ok [] (writeFile [] w2).2
  | .unreadable err =>
    .exit 1 (w1.emit (.print (str "Error reading tasks.json: " ++ err ++ str "\n")))
  | .malformed err =>
    .exit 1 (w1.emit (.print (str "Error parsing tasks.json: " ++ err ++ str "\n")))
  | .holds tasks => .ok tasks w1

/-- saveTasks saves tasks to tasks.json (`main.go`, 47-59). -/
def saveTasks (tasks : List Task) (w : World) : Step Unit :=
  match writeFile tasks w with
  | (none, w1) => .ok () w1
  | (some err, w1) =>
    .exit 1 (w1.emit (.print (str "Error saving tasks: " ++ err ++ str "\n")))

/-- addTask creates and adds a new task (`main.go`, 62-80). -/
def addTask (description : GoString) (now : Time) (w : World) : Step Unit :=
  (readTasks w).bind fun tasks w1 =>
    let id : Int := (tasks.length : Int) + 1
    let newTask : Task :=
      { ID := id, Description := description, Status := str "todo",
        CreatedAt := now, UpdatedAt := now }
    let tasks := tasks ++ [newTask]
    (saveTasks tasks w1).bind fun _ w2 =>
      .ok () (w2.emit (.print
        (str "Task added successfully (ID: " ++ str (toString id) ++ str ")\n")))

/-- In-place change of `tasks[i]`; the index is in range wherever the program uses it. -/
def modifyAt (f : Task → Task) : Nat → List Task → List Task
  | _, [] => []
  | 0, t :: ts => f t :: ts
  | i + 1, t :: ts => t :: modifyAt f i ts

/-- The `for i, task := range tasks` loop of `updateTask`: `i` is the index of the head
of the part still to visit. -/
def updateTask.loop (id : Int) (description : GoString) (now : Time) (tasks : List Task) :
    Nat → List Task → World → Step Unit
  | _, [], w =>
    .ok () (w.emit (.print (str "Task with ID " ++ str (toString id) ++ str " not found\n")))
  | i, task :: rest, w =>
    if task.ID = id then
      let tasks1 := modifyAt (fun t => { t with Description := description }) i tasks
      let tasks2 := modifyAt (fun t => { t with UpdatedAt := now }) i tasks1
      (saveTasks tasks2 w).bind fun _ w1 =>
        .ok () (w1.emit (.print
          (str "Task updated successfully (ID: " ++ str (toString id) ++ str ")\n")))
    else updateTask.loop id description now tasks (i + 1) rest w

/-- updateTask updates the description of an existing task (`main.go`, 83-96). -/
def updateTask (id : Int) (description : GoString) (now : Time) (w : World) : Step Unit :=
  (readTasks w).bind fun tasks w1 => updateTask.loop id description now tasks 0 tasks w1

/-- The loop of `deleteTask`: `newTasks` collects the tasks that are kept. -/
def deleteTask.loop (id : Int) : List Task → List Task → List Task
  | [], newTasks => newTasks
  | task :: rest, newTasks =>
    if task.ID ≠ id then deleteTask.loop id rest (newTasks ++ [task])
    else deleteTask.loop id rest newTasks

/-- deleteTask removes a task by its ID (`main.go`, 99-109). -/
def deleteTask (id : Int) (w : World) : Step Unit :=
  (readTasks w).bind fun tasks w1 =>
    let newTasks := deleteTask.loop id tasks []
    (saveTasks newTasks w1).bind fun _ w2 =>
      .ok () (w2.emit (.print
        (str "Task deleted successfully (ID: " ++ str (toString id) ++ str ")\n")))

/-- The `for i, task := range tasks` loop of `markTask`. -/
def markTask.loop (id : Int) (status : GoString) (now : Time) (tasks : List Task) :
    Nat → List Task → World → Step Unit
  | _, [], w =>
    .ok () (w.emit (.print (str "Task with ID " ++ str (toString id) ++ str " not found\n")))
  | i, task :: rest, w =>
    if task.ID = id then
      let tasks1 := modifyAt (fun t => { t with Status := status }) i tasks
      let tasks2 := modifyAt (fun t => { t with UpdatedAt := now }) i tasks1
      (saveTasks tasks2 w).bind fun _ w1 =>
        .ok () (w1.emit (.print
          (str "Task marked as '" ++ status ++ str "' (ID: " ++ str (toString id) ++
            str ")\n")))
    else markTask.loop id status now tasks (i + 1) rest w

/-- markTask updates the status of a task (`main.go`, 112-130). -/
def markTask (id : Int) (status : GoString) (now : Time) (w : World) : Step Unit :=
  if status != str "in-progress" && status != str "done" then
    .ok () (w.emit (.print (str "Invalid status. Use 'in-progress' or 'done'.\n")))
  else
    (readTasks w).bind fun tasks w1 => markTask.loop id status now tasks 0 tasks w1

/-- The text `listTasks` prints for one task; `formatRFC1123` stands for
`time.Time.Format(time.RFC1123)`, which reads the instant and the zone. -/
def renderTask (formatRFC1123 : Time → GoString) (task : Task) : GoString :=
  str "ID: " ++ str (toString task.ID) ++ str "\nDescription: " ++ task.Description ++
  str "\nStatus: " ++ task.Status ++ str "\nCreated At: " ++ formatRFC1123 task.CreatedAt ++
  str "\nUpdated At: " ++ formatRFC1123 task.UpdatedAt ++ str "\n\n"

/-- The loop of `listTasks`. -/
def listTasks.loop (formatRFC1123 : Time → GoString) (filter : GoString) :
    List Task → World → World
  | [], w => w
  | task :: rest, w =>
    if filter == str "all" || filter == task.Status then
      listTasks.loop formatRFC1123 filter rest
        (w.emit (.print (renderTask formatRFC1123 task)))
    else listTasks.loop formatRFC1123 filter rest w

/-- listTasks lists tasks based on the filter (`main.go`, 133-141). -/
def listTasks (formatRFC1123 : Time → GoString) (filter : GoString) (w : World) :
    Step Unit :=
  (readTasks w).bind fun tasks w1 => .ok () (listTasks.loop formatRFC1123 filter tasks w1)

/-- The mutating commands of `main` once their arguments are parsed. -/
inductive Op where
  | add (description : GoString)
  | update (id : Int) (description : GoString)
  | delete (id : Int)
  | markInProgress (id : Int)
  | markDone (id : Int)
  deriving DecidableEq, Repr

/-- The dispatch of `main` (`main.go`, 153-207); `now` is the clock reading of this
invocation. -/
def Op.exec : Op → Time → World → Step Unit
  | .add description, now, w => addTask description now w
  | .update id description, now, w => updateTask id description now w
  | .delete id, _, w => deleteTask id w
  | .markInProgress id, now, w => markTask id (str "in-progress") now w
  | .markDone id, now, w => markTask id (str "done") now w

/-- Successive invocations of the program; a fatal exit ends the series. -/
def runAll : List (Op × Time) → World → Step Unit
  | [], w => .ok () w
  | (op, now) :: rest, w => (op.exec now w).bind fun _ w1 => runAll rest w1

/-- The tasks in the file, when it decodes. -/
def World.tasks (w : World) : List Task :=
  match w.file with
  | .holds tasks => tasks
  | _ => []

/-- A world whose file decodes to `c`, where writes succeed, with local zone `loc` and
history `tr`. -/
def World.holding (loc : Int → Zone) (c : List Task) (tr : List Event) : World :=
  { file := .holds c, writeErr := none, localZone := loc, trace := tr }

/-- The zone UTC. -/
def utcZone : Zone := { name := str "UTC", offset := 0 }

/-- An instant shown in UTC. -/
def utcTime (n : Int) : Time := { unixNano := n, zone := utcZone }

/-! ## Auxiliary facts about the codec, the file operations and the loops -/

theorem str_bytes :
    str "a" = [0x61] ∧ str "é" = [0xC3, 0xA9] ∧ str "€" = [0xE2, 0x82, 0xAC] ∧
    str "todo" = [0x74, 0x6F, 0x64, 0x6F] := by
  decide

theorem toValidUTF8_samples :
    toValidUTF8 (str "naïve €") = str "naïve €" ∧
    toValidUTF8 [0xC0, 0x80] = [0xEF, 0xBF, 0xBD, 0xEF, 0xBF, 0xBD] ∧
    toValidUTF8 [0xE2, 0x82] = [0xEF, 0xBF, 0xBD, 0xEF, 0xBF, 0xBD] ∧
    toValidUTF8 [0xED, 0xA0, 0x80] =
      [0xEF, 0xBF, 0xBD, 0xEF, 0xBF, 0xBD, 0xEF, 0xBF, 0xBD] ∧
    utf8Valid [0xF0, 0x9D, 0x84, 0x9E] = true ∧ utf8Valid [0xFF, 0x61] = false := by
  decide

theorem toValidUTF8_go_of_valid (k : Nat) (s : GoString) (h : utf8Valid.go k s = true) :
    toValidUTF8.go k s = s := by
  induction s generalizing k with
  | nil => cases k <;> rfl
  | cons b rest ih =>
    cases k with
    | zero =>
      simp only [utf8Valid.go] at h
      simp only [toValidUTF8.go]
      cases hn : utf8HeadLen (b :: rest) with
      | zero => simp [hn] at h
      | succ n =>
        simp only [hn] at h
        simp [ih n h]
    | succ k =>
      simp only [utf8Valid.go] at h
      simp [toValidUTF8.go, ih k h]

theorem toValidUTF8_of_valid (s : GoString) (h : utf8Valid s = true) : toValidUTF8 s = s :=
  toValidUTF8_go_of_valid 0 s h

theorem decodeZone_offset (loc : Int → Zone) (n off : Int) :
    (decodeZone loc n off).offset = off := by
  unfold decodeZone
  split
  · next h => simp [h]
  · split
    · next h => exact h
    · rfl

theorem jsonTime_idem (loc : Int → Zone) (t : Time) :
    jsonTime loc (jsonTime loc t) = jsonTime loc t := by
  simp only [jsonTime, decodeZone_offset]

theorem readTasks_holds (c : List Task) (we : Option (GoString × FileState))
    (loc : Int → Zone) (tr : List Event) :
    readTasks { file := .holds c, writeErr := we, localZone := loc, trace := tr } =
      .ok c { file := .holds c, writeErr := we, localZone := loc,
              trace := tr ++ [.readFile] } := by
  simp [readTasks, World.emit]

theorem saveTasks_ok (ts : List Task) (f : FileState) (loc : Int → Zone)
    (tr : List Event) :
    saveTasks ts { file := f, writeErr := none, localZone := loc, trace := tr } =
      .ok () (World.holding loc (ts.map (jsonTask loc)) (tr ++ [.writeFile ts])) := by
  simp [saveTasks, writeFile, World.emit, World.holding]

theorem deleteTask_loop_eq (id : Int) (ts acc : List Task) :
    deleteTask.loop id ts acc = acc ++ ts.filter (fun t => decide (t.ID ≠ id)) := by
  induction ts generalizing acc with
  | nil => simp [deleteTask.loop]
  | cons t rest ih =>
    by_cases h : t.ID = id <;> simp [deleteTask.loop, h, ih]

theorem deleteTask_eq (id : Int) (loc : Int → Zone) (c : List Task) (tr : List Event) :
    deleteTask id (World.holding loc c tr) =
      .ok () (World.holding loc ((c.filter (fun t => decide (t.ID ≠ id))).map (jsonTask loc))
        (tr ++ [.readFile, .writeFile (c.filter (fun t => decide (t.ID ≠ id))),
          .print (str "Task deleted successfully (ID: " ++ str (toString id) ++
            str ")\n")])) := by
  simp [deleteTask, World.holding, readTasks_holds, saveTasks_ok, Step.bind,
    deleteTask_loop_eq, World.emit]

theorem listTasks_loop_eq (fmt : Time → GoString) (filter : GoString) (ts : List Task)
    (w : World) :
    listTasks.loop fmt filter ts w =
      { w with
        trace := w.trace ++
          (ts.filter (fun t => filter == str "all" || filter == t.Status)).map
            (fun t => Event.print (renderTask fmt t)) } := by
  induction ts generalizing w with
  | nil => simp [listTasks.loop]
  | cons t rest ih =>
    by_cases h : (filter == str "all" || filter == t.Status) = true
    · simp only [listTasks.loop, h, if_true, ih, List.filter_cons_of_pos, List.map_cons,
        World.emit]
      simp
    · have hf : List.filter (fun t => filter == str "all" || filter == t.Status)
          (t :: rest) =
          List.filter (fun t => filter == str "all" || filter == t.Status) rest :=
        List.filter_cons_of_neg h
      simp only [listTasks.loop, h, ih, hf]
      simp

theorem modifyAt_append (f : Task → Task) (pre : List Task) (t : Task) (post : List Task) :
    modifyAt f pre.length (pre ++ t :: post) = pre ++ f t :: post := by
  induction pre with
  | nil => simp [modifyAt]
  | cons x xs ih => simp [modifyAt, ih]

theorem exists_first_match (id : Int) (c : List Task) (h : ∃ t ∈ c, t.ID = id) :
    ∃ pre t post, c = pre ++ t :: post ∧ (∀ x ∈ pre, x.ID ≠ id) ∧ t.ID = id := by
  induction c with
  | nil => simp at h
  | cons x xs ih =>
    by_cases hx : x.ID = id
    · exact ⟨[], x, xs, by simp, by simp, hx⟩
    · have h2 : ∃ t ∈ xs, t.ID = id := by
        obtain ⟨t, ht, hid⟩ := h
        rcases List.mem_cons.mp ht with rfl | ht2
        · exact absurd hid hx
        · exact ⟨t, ht2, hid⟩
      obtain ⟨pre, t, post, hc, hpre, ht⟩ := ih h2
      refine ⟨x :: pre, t, post, by simp [hc], ?_, ht⟩
      intro y hy
      rcases List.mem_cons.mp hy with rfl | hy2
      · exact hx
      · exact hpre y hy2

theorem updateTask_loop_skip (id : Int) (d : GoString) (now : Time) (tasks : List Task)
    (i : Nat) (mid rest : List Task) (w : World) (h : ∀ x ∈ mid, x.ID ≠ id) :
    updateTask.loop id d now tasks i (mid ++ rest) w =
      updateTask.loop id d now tasks (i + mid.length) rest w := by
  induction mid generalizing i with
  | nil => simp
  | cons x xs ih =>
    have hx : x.ID ≠ id := h x (by simp)
    have hxs : ∀ y ∈ xs, y.ID ≠ id := fun y hy => h y (by simp [hy])
    have hi : i + 1 + xs.length = i + (xs.length + 1) := by omega
    have e : updateTask.loop id d now tasks i (x :: (xs ++ rest)) w =
        updateTask.loop id d now tasks (i + 1) (xs ++ rest) w := by
      simp [updateTask.loop, hx]
    rw [List.cons_append, e, ih (i + 1) hxs, List.length_cons, hi]

theorem markTask_loop_skip (id : Int) (s : GoString) (now : Time) (tasks : List Task)
    (i : Nat) (mid rest : List Task) (w : World) (h : ∀ x ∈ mid, x.ID ≠ id) :
    markTask.loop id s now tasks i (mid ++ rest) w =
      markTask.loop id s now tasks (i + mid.length) rest w := by
  induction mid generalizing i with
  | nil => simp
  | cons x xs ih =>
    have hx : x.ID ≠ id := h x (by simp)
    have hxs : ∀ y ∈ xs, y.ID ≠ id := fun y hy => h y (by simp [hy])
    have hi : i + 1 + xs.length = i + (xs.length + 1) := by omega
    have e : markTask.loop id s now tasks i (x :: (xs ++ rest)) w =
        markTask.loop id s now tasks (i + 1) (xs ++ rest) w := by
      simp [markTask.loop, hx]
    rw [List.cons_append, e, ih (i + 1) hxs, List.length_cons, hi]

theorem valid_status_passes (s : GoString) (hs : s = str "in-progress" ∨ s = str "done") :
    (s != str "in-progress" && s != str "done") = false := by
  rcases hs with rfl | rfl <;> decide

theorem updateTask_found (id : Int) (d : GoString) (now : Time) (loc : Int → Zone)
    (pre : List Task) (t : Task) (post : List Task) (tr : List Event)
    (hpre : ∀ x ∈ pre, x.ID ≠ id) (ht : t.ID = id) :
    updateTask id d now (World.holding loc (pre ++ t :: post) tr) =
      .ok () (World.holding loc
        ((pre ++ { t with Description := d, UpdatedAt := now } :: post).map (jsonTask loc))
        (tr ++ [.readFile,
          .writeFile (pre ++ { t with Description := d, UpdatedAt := now } :: post),
          .print (str "Task updated successfully (ID: " ++ str (toString id) ++
            str ")\n")])) := by
  simp only [updateTask, World.holding, readTasks_holds, Step.bind]
  rw [updateTask_loop_skip id d now _ 0 pre (t :: post) _ hpre]
  simp [updateTask.loop, ht, modifyAt_append, saveTasks_ok, Step.bind, World.emit,
    World.holding]

theorem markTask_found (id : Int) (s : GoString) (now : Time) (loc : Int → Zone)
    (pre : List Task) (t : Task) (post : List Task) (tr : List Event)
    (hs : s = str "in-progress" ∨ s = str "done")
    (hpre : ∀ x ∈ pre, x.ID ≠ id) (ht : t.ID = id) :
    markTask id s now (World.holding loc (pre ++ t :: post) tr) =
      .ok () (World.holding loc
        ((pre ++ { t with Status := s, UpdatedAt := now } :: post).map (jsonTask loc))
        (tr ++ [.readFile,
          .writeFile (pre ++ { t with Status := s, UpdatedAt := now } :: post),
          .print (str "Task marked as '" ++ s ++ str "' (ID: " ++ str (toString id) ++
            str ")\n")])) := by
  simp only [markTask, valid_status_passes s hs, World.holding, readTasks_holds, Step.bind]
  simp only [Bool.false_eq_true, if_false]
  rw [markTask_loop_skip id s now _ 0 pre (t :: post) _ hpre]
  simp [markTask.loop, ht, modifyAt_append, saveTasks_ok, Step.bind, World.emit,
    World.holding]

theorem updateTask_not_found (id : Int) (d : GoString) (now : Time) (c : List Task)
    (we : Option (GoString × FileState)) (loc : Int → Zone) (tr : List Event)
    (h : ∀ t ∈ c, t.ID ≠ id) :
    updateTask id d now { file := .holds c, writeErr := we, localZone := loc, trace := tr } =
      .ok () { file := .holds c, writeErr := we, localZone := loc,
               trace := tr ++ [.readFile,
                 .print (str "Task with ID " ++ str (toString id) ++
                   str " not found\n")] } := by
  simp only [updateTask, readTasks_holds, Step.bind]
  have := updateTask_loop_skip id d now c 0 c []
    { file := .holds c, writeErr := we, localZone := loc, trace := tr ++ [.readFile] } h
  rw [List.append_nil] at this
  rw [this]
  simp [updateTask.loop, World.emit]

theorem markTask_not_found (id : Int) (s : GoString) (now : Time) (c : List Task)
    (we : Option (GoString × FileState)) (loc : Int → Zone) (tr : List Event)
    (hs : s = str "in-progress" ∨ s = str "done") (h : ∀ t ∈ c, t.ID ≠ id) :
    markTask id s now { file := .holds c, writeErr := we, localZone := loc, trace := tr } =
      .ok () { file := .holds c, writeErr := we, localZone := loc,
               trace := tr ++ [.readFile,
                 .print (str "Task with ID " ++ str (toString id) ++
                   str " not found\n")] } := by
  simp only [markTask, valid_status_passes s hs, readTasks_holds, Step.bind]
  simp only [Bool.false_eq_true, if_false]
  have := markTask_loop_skip id s now c 0 c []
    { file := .holds c, writeErr := we, localZone := loc, trace := tr ++ [.readFile] } h
  rw [List.append_nil] at this
  rw [this]
  simp [markTask.loop, World.emit]

theorem saveTasks_trace (ts : List Task) (w : World) :
    ∃ r, (saveTasks ts w).world.trace = w.trace ++ r := by
  obtain ⟨f, we, loc, tr⟩ := w
  cases we with
  | none => exact ⟨[.writeFile ts], by simp [saveTasks, writeFile, World.emit, Step.world]⟩
  | some e =>
    obtain ⟨err, after⟩ := e
    exact ⟨[.writeFile ts, .print (str "Error saving tasks: " ++ err ++ str "\n")],
      by simp [saveTasks, writeFile, World.emit, Step.world]⟩

theorem markTask_loop_trace (id : Int) (s : GoString) (now : Time) (tasks : List Task)
    (i : Nat) (rest : List Task) (w : World) :
    ∃ r, (markTask.loop id s now tasks i rest w).world.trace = w.trace ++ r := by
  induction rest generalizing i with
  | nil =>
    exact ⟨[.print (str "Task with ID " ++ str (toString id) ++ str " not found\n")],
      by simp [markTask.loop, World.emit, Step.world]⟩
  | cons x xs ih =>
    by_cases hx : x.ID = id
    · simp only [markTask.loop, hx, if_true]
      obtain ⟨r, hr⟩ := saveTasks_trace
        (modifyAt (fun t => { t with UpdatedAt := now }) i
          (modifyAt (fun t => { t with Status := s }) i tasks)) w
      revert hr
      cases saveTasks
        (modifyAt (fun t => { t with UpdatedAt := now }) i
          (modifyAt (fun t => { t with Status := s }) i tasks)) w with
      | ok a w1 =>
        intro hr
        simp only [Step.world] at hr
        exact ⟨r ++ [.print (str "Task marked as '" ++ s ++ str "' (ID: " ++
            str (toString id) ++ str ")\n")],
          by simp [Step.bind, Step.world, World.emit, hr]⟩
      | exit code w1 =>
        intro hr
        exact ⟨r, by simpa [Step.bind, Step.world] using hr⟩
    · simp only [markTask.loop, hx, if_false]
      exact ih (i + 1)

theorem markTask_valid_loads (id : Int) (s : GoString) (now : Time) (w : World)
    (hs : s = str "in-progress" ∨ s = str "done") :
    ∃ r, (markTask id s now w).world.trace = w.trace ++ Event.readFile :: r := by
  obtain ⟨f, we, loc, tr⟩ := w
  simp only [markTask, valid_status_passes s hs, Bool.false_eq_true, if_false]
  cases f with
  | missing =>
    refine ⟨[.print (str "tasks.json not found. Creating a new file...\n"), .writeFile [],
      .print (str "Task with ID " ++ str (toString id) ++ str " not found\n")], ?_⟩
    cases we with
    | none => simp [readTasks, writeFile, World.emit, Step.bind, markTask.loop, Step.world]
    | some e => simp [readTasks, writeFile, World.emit, Step.bind, markTask.loop, Step.world]
  | unreadable err =>
    exact ⟨[.print (str "Error reading tasks.json: " ++ err ++ str "\n")],
      by simp [readTasks, World.emit, Step.bind, Step.world]⟩
  | malformed err =>
    exact ⟨[.print (str "Error parsing tasks.json: " ++ err ++ str "\n")],
      by simp [readTasks, World.emit, Step.bind, Step.world]⟩
  | holds c =>
    obtain ⟨r, hr⟩ := markTask_loop_trace id s now c 0 c
      { file := .holds c, writeErr := we, localZone := loc, trace := tr ++ [.readFile] }
    exact ⟨r, by simp [readTasks_holds, Step.bind, hr]⟩

/-! ## The claims -/

/-- C1: for every collection `c`, description `d` and clock reading `now`, `addTask d`
hands to `saveTasks` the collection `c` followed by exactly one new task, whose ID is
`len c + 1`, whose description is `d`, whose status is "todo" and whose two timestamps are
`now`; the tasks of `c` keep their values and their order, and the ID printed is that of
the new task. The file then holds what the JSON codec makes of that collection. -/
theorem addTask_appends (loc : Int → Zone) (c : List Task) (d : GoString) (now : Time)
    (tr : List Event) :
    ∃ t : Task,
      t.ID = (c.length : Int) + 1 ∧ t.Description = d ∧ t.Status = str "todo" ∧
      t.CreatedAt = now ∧ t.UpdatedAt = now ∧
      addTask d now (World.holding loc c tr) =
        .ok () (World.holding loc ((c ++ [t]).map (jsonTask loc))
          (tr ++ [.readFile, .writeFile (c ++ [t]),
            .print (str "Task added successfully (ID: " ++ str (toString t.ID) ++
              str ")\n")])) := by
  refine ⟨{ ID := (c.length : Int) + 1, Description := d, Status := str "todo",
            CreatedAt := now, UpdatedAt := now }, rfl, rfl, rfl, rfl, rfl, ?_⟩
  simp [addTask, World.holding, readTasks_holds, saveTasks_ok, Step.bind, World.emit]

/-- C4: when no task of `c` has ID `id`, `deleteTask id` still calls `saveTasks`, and the
collection it saves is `c` itself: same tasks, same field values, same order. -/
theorem deleteTask_absent_id (loc : Int → Zone) (c : List Task) (id : Int)
    (tr : List Event) (h : ∀ t ∈ c, t.ID ≠ id) :
    deleteTask id (World.holding loc c tr) =
      .ok () (World.holding loc (c.map (jsonTask loc))
        (tr ++ [.readFile, .writeFile c,
          .print (str "Task deleted successfully (ID: " ++ str (toString id) ++
            str ")\n")])) := by
  have hf : c.filter (fun t => decide (t.ID ≠ id)) = c := by
    rw [List.filter_eq_self]
    intro t ht
    simpa using h t ht
  rw [deleteTask_eq, hf]

theorem deleteTask_absent_id_witness :
    (∀ t ∈ [(⟨1, str "a", str "todo", utcTime 5, utcTime 5⟩ : Task)], t.ID ≠ 7) ∧
    deleteTask 7
        (World.holding (fun _ => utcZone) [⟨1, str "a", str "todo", utcTime 5, utcTime 5⟩]
          []) =
      .ok () (World.holding (fun _ => utcZone)
        ([(⟨1, str "a", str "todo", utcTime 5, utcTime 5⟩ : Task)].map
          (jsonTask (fun _ => utcZone)))
        ([] ++ [.readFile, .writeFile [⟨1, str "a", str "todo", utcTime 5, utcTime 5⟩],
          .print (str "Task deleted successfully (ID: " ++ str (toString (7 : Int)) ++
            str ")\n")])) :=
  ⟨by simp, deleteTask_absent_id _ _ 7 [] (by simp)⟩

/-- C10: for every collection `c` and ID `id`, the collection `deleteTask id` saves is the
sub-sequence of `c` made of the tasks whose ID differs from `id`: no task with ID `id`
remains (however many had it), and each other task is kept, unchanged and in its original
relative order. -/
theorem deleteTask_saves_filter (loc : Int → Zone) (c : List Task) (id : Int)
    (tr : List Event) :
    ∃ saved : List Task,
      deleteTask id (World.holding loc c tr) =
        .ok () (World.holding loc (saved.map (jsonTask loc))
          (tr ++ [.readFile, .writeFile saved,
            .print (str "Task deleted successfully (ID: " ++ str (toString id) ++
              str ")\n")])) ∧
      saved = c.filter (fun t => decide (t.ID ≠ id)) ∧
      (∀ t ∈ saved, t.ID ≠ id) ∧
      (∀ t ∈ c, t.ID ≠ id → t ∈ saved) ∧
      List.Sublist saved c ∧
      (∀ t : Task, t.ID ≠ id → saved.count t = c.count t) := by
  refine ⟨c.filter (fun t => decide (t.ID ≠ id)), deleteTask_eq id loc c tr, rfl, ?_, ?_,
    List.filter_sublist c, ?_⟩
  · intro t ht
    simpa using (List.mem_filter.mp ht).2
  · intro t ht hne
    exact List.mem_filter.mpr ⟨ht, by simpa using hne⟩
  · intro t hne
    rw [List.count_filter]
    simpa using hne

/-- C3: when `c` contains a task with ID `id`, `updateTask id d` saves `c` with the first
such task replaced by a task that has description `d` and updatedAt `now` and the same ID,
status and createdAt; the tasks before and after it are the same, so the length and the
order of the collection are unchanged. -/
theorem updateTask_changes_first_match (loc : Int → Zone) (c : List Task) (id : Int)
    (d : GoString) (now : Time) (tr : List Event) (h : ∃ t ∈ c, t.ID = id) :
    ∃ (pre : List Task) (t : Task) (post : List Task) (u : Task) (saved : List Task),
      c = pre ++ t :: post ∧ (∀ x ∈ pre, x.ID ≠ id) ∧ t.ID = id ∧
      saved = pre ++ u :: post ∧
      u.Description = d ∧ u.UpdatedAt = now ∧
      u.ID = t.ID ∧ u.Status = t.Status ∧ u.CreatedAt = t.CreatedAt ∧
      saved.length = c.length ∧
      updateTask id d now (World.holding loc c tr) =
        .ok () (World.holding loc (saved.map (jsonTask loc))
          (tr ++ [.readFile, .writeFile saved,
            .print (str "Task updated successfully (ID: " ++ str (toString id) ++
              str ")\n")])) := by
  obtain ⟨pre, t, post, hc, hpre, ht⟩ := exists_first_match id c h
  refine ⟨pre, t, post, { t with Description := d, UpdatedAt := now }, _, hc, hpre, ht, rfl,
    rfl, rfl, rfl, rfl, rfl, ?_, ?_⟩
  · simp [hc]
  · rw [hc]
    exact updateTask_found id d now loc pre t post tr hpre ht

theorem updateTask_changes_first_match_witness :
    ∃ (pre : List Task) (t : Task) (post : List Task) (u : Task) (saved : List Task),
      [(⟨1, str "a", str "todo", utcTime 5, utcTime 5⟩ : Task),
        ⟨2, str "b", str "done", utcTime 6, utcTime 7⟩,
        ⟨2, str "c", str "todo", utcTime 8, utcTime 8⟩] =
        pre ++ t :: post ∧ (∀ x ∈ pre, x.ID ≠ 2) ∧ t.ID = 2 ∧
      saved = pre ++ u :: post ∧
      u.Description = str "new" ∧ u.UpdatedAt = utcTime 9 ∧
      u.ID = t.ID ∧ u.Status = t.Status ∧ u.CreatedAt = t.CreatedAt ∧
      saved.length =
        [(⟨1, str "a", str "todo", utcTime 5, utcTime 5⟩ : Task),
          ⟨2, str "b", str "done", utcTime 6, utcTime 7⟩,
          ⟨2, str "c", str "todo", utcTime 8, utcTime 8⟩].length ∧
      updateTask 2 (str "new") (utcTime 9)
          (World.holding (fun _ => utcZone)
            [⟨1, str "a", str "todo", utcTime 5, utcTime 5⟩,
              ⟨2, str "b", str "done", utcTime 6, utcTime 7⟩,
              ⟨2, str "c", str "todo", utcTime 8, utcTime 8⟩] []) =
        .ok () (World.holding (fun _ => utcZone) (saved.map (jsonTask (fun _ => utcZone)))
          ([] ++ [.readFile, .writeFile saved,
            .print (str "Task updated successfully (ID: " ++ str (toString (2 : Int)) ++
              str ")\n")])) :=
  updateTask_changes_first_match _ _ 2 (str "new") (utcTime 9) []
    ⟨⟨2, str "b", str "done", utcTime 6, utcTime 7⟩, by simp, rfl⟩

/-- C5: `markTask` rejects every status other than "in-progress" and "done" ("todo" and
the empty string included): it prints the invalid-status message and does nothing else, so
the file is neither read nor written and no task changes. For "in-progress" and "done" the
check lets the call through: the next action is the read of the file. -/
theorem markTask_validates_status (id : Int) (s : GoString) (now : Time) (w : World) :
    (s ≠ str "in-progress" → s ≠ str "done" →
      markTask id s now w =
        .ok () { file := w.file, writeErr := w.writeErr, localZone := w.localZone,
                 trace := w.trace ++
                   [.print (str "Invalid status. Use 'in-progress' or 'done'.\n")] }) ∧
    (s = str "in-progress" ∨ s = str "done" →
      ∃ r, (markTask id s now w).world.trace = w.trace ++ Event.readFile :: r) := by
  refine ⟨?_, markTask_valid_loads id s now w⟩
  intro h1 h2
  simp [markTask, h1, h2, World.emit]

theorem markTask_validates_status_witness :
    (markTask 1 (str "todo") (utcTime 9)
        (World.holding (fun _ => utcZone) [⟨1, str "a", str "todo", utcTime 5, utcTime 5⟩]
          []) =
      .ok () { file := .holds [⟨1, str "a", str "todo", utcTime 5, utcTime 5⟩],
               writeErr := none, localZone := fun _ => utcZone,
               trace := [] ++
                 [.print (str "Invalid status. Use 'in-progress' or 'done'.\n")] }) ∧
    (markTask 1 [] (utcTime 9)
        (World.holding (fun _ => utcZone) [⟨1, str "a", str "todo", utcTime 5, utcTime 5⟩]
          []) =
      .ok () { file := .holds [⟨1, str "a", str "todo", utcTime 5, utcTime 5⟩],
               writeErr := none, localZone := fun _ => utcZone,
               trace := [] ++
                 [.print (str "Invalid status. Use 'in-progress' or 'done'.\n")] }) ∧
    (∃ r, (markTask 1 (str "done") (utcTime 9)
        (World.holding (fun _ => utcZone) [⟨1, str "a", str "todo", utcTime 5, utcTime 5⟩]
          [])).world.trace = [] ++ Event.readFile :: r) :=
  ⟨(markTask_validates_status 1 (str "todo") (utcTime 9)
      (World.holding (fun _ => utcZone) [⟨1, str "a", str "todo", utcTime 5, utcTime 5⟩]
        [])).1 (by decide) (by decide),
   (markTask_validates_status 1 [] (utcTime 9)
      (World.holding (fun _ => utcZone) [⟨1, str "a", str "todo", utcTime 5, utcTime 5⟩]
        [])).1 (by decide) (by decide),
   (markTask_validates_status 1 (str "done") (utcTime 9)
      (World.holding (fun _ => utcZone) [⟨1, str "a", str "todo", utcTime 5, utcTime 5⟩]
        [])).2 (Or.inr rfl)⟩

/-- C6: for every collection `c` and filter `f`, `listTasks f` reads the file and then
prints, in collection order, one block for each task of `c` whose status equals `f` when
`f` is not "all", and one block for every task of `c` when `f` is "all"; the block of a
task shows its ID, description, status and its two timestamps in RFC 1123 form; nothing
else is printed and the file is left as it was. -/
theorem listTasks_prints_selection (formatRFC1123 : Time → GoString) (loc : Int → Zone)
    (c : List Task) (f : GoString) (tr : List Event) :
    listTasks formatRFC1123 f (World.holding loc c tr) =
      .ok () (World.holding loc c
        (tr ++ Event.readFile ::
          (if f = str "all" then c else c.filter (fun t => decide (t.Status = f))).map
            (fun t => Event.print
              (str "ID: " ++ str (toString t.ID) ++
               str "\nDescription: " ++ t.Description ++
               str "\nStatus: " ++ t.Status ++
               str "\nCreated At: " ++ formatRFC1123 t.CreatedAt ++
               str "\nUpdated At: " ++ formatRFC1123 t.UpdatedAt ++ str "\n\n")))) := by
  simp only [listTasks, World.holding, readTasks_holds, Step.bind, listTasks_loop_eq,
    renderTask]
  by_cases hf : f = str "all"
  · subst hf
    simp
  · have e : List.filter (fun t => f == str "all" || f == t.Status) c =
        List.filter (fun t => decide (t.Status = f)) c := by
      apply List.filter_congr
      intro t _
      have h1 : (f == str "all") = false := by simpa using hf
      rw [h1, Bool.false_or]
      by_cases h : f = t.Status
      · simp [h]
      · have h2 : ¬ t.Status = f := fun e => h e.symm
        simp [h, h2]
    simp [hf, e]

/-- C7: when no task of `c` has ID `id`, `updateTask id d` (any `d`) and `markTask id s`
(`s` one of "in-progress", "done") print the not-found message after reading the file and
do nothing else: `saveTasks` is not called and the file holds `c` as before, with every
field, updatedAt included, and the order untouched. -/
theorem not_found_leaves_collection (c : List Task) (id : Int) (d s : GoString)
    (now : Time) (we : Option (GoString × FileState)) (loc : Int → Zone) (tr : List Event)
    (h : ∀ t ∈ c, t.ID ≠ id) (hs : s = str "in-progress" ∨ s = str "done") :
    updateTask id d now { file := .holds c, writeErr := we, localZone := loc, trace := tr } =
      .ok () { file := .holds c, writeErr := we, localZone := loc,
               trace := tr ++ [.readFile,
                 .print (str "Task with ID " ++ str (toString id) ++
                   str " not found\n")] } ∧
    markTask id s now { file := .holds c, writeErr := we, localZone := loc, trace := tr } =
      .ok () { file := .holds c, writeErr := we, localZone := loc,
               trace := tr ++ [.readFile,
                 .print (str "Task with ID " ++ str (toString id) ++
                   str " not found\n")] } :=
  ⟨updateTask_not_found id d now c we loc tr h, markTask_not_found id s now c we loc tr hs h⟩

theorem not_found_leaves_collection_witness :
    updateTask 7 (str "x") (utcTime 9)
        { file := .holds [⟨1, str "a", str "todo", utcTime 5, utcTime 5⟩], writeErr := none,
          localZone := fun _ => utcZone, trace := [] } =
      .ok () { file := .holds [⟨1, str "a", str "todo", utcTime 5, utcTime 5⟩],
               writeErr := none, localZone := fun _ => utcZone,
               trace := [] ++ [.readFile,
                 .print (str "Task with ID " ++ str (toString (7 : Int)) ++
                   str " not found\n")] } ∧
    markTask 7 (str "done") (utcTime 9)
        { file := .holds [⟨1, str "a", str "todo", utcTime 5, utcTime 5⟩], writeErr := none,
          localZone := fun _ => utcZone, trace := [] } =
      .ok () { file := .holds [⟨1, str "a", str "todo", utcTime 5, utcTime 5⟩],
               writeErr := none, localZone := fun _ => utcZone,
               trace := [] ++ [.readFile,
                 .print (str "Task with ID " ++ str (toString (7 : Int)) ++
                   str " not found\n")] } :=
  not_found_leaves_collection [⟨1, str "a", str "todo", utcTime 5, utcTime 5⟩] 7 (str "x")
    (str "done") (utcTime 9) none (fun _ => utcZone) [] (by simp) (Or.inr rfl)

/-- C8, as stated, fails: a task whose description is the two bytes FF 61 (not UTF-8) and
whose timestamps are shown in the zone GMT (offset 0) is saved and loaded again with the
description EF BF BD 61 (U+FFFD, then "a") and with timestamps shown in UTC. -/
theorem roundTrip_changes_description_and_zone :
    (saveTasks [⟨1, [0xFF, 0x61], str "todo", ⟨5, ⟨str "GMT", 0⟩⟩, ⟨5, ⟨str "GMT", 0⟩⟩⟩]
        (World.holding (fun _ => ⟨str "GMT", 0⟩) [] [])).bind (fun _ w => readTasks w) =
      .ok [⟨1, [0xEF, 0xBF, 0xBD, 0x61], str "todo", ⟨5, ⟨str "UTC", 0⟩⟩,
            ⟨5, ⟨str "UTC", 0⟩⟩⟩]
        (World.holding (fun _ => ⟨str "GMT", 0⟩)
          [⟨1, [0xEF, 0xBF, 0xBD, 0x61], str "todo", ⟨5, ⟨str "UTC", 0⟩⟩,
            ⟨5, ⟨str "UTC", 0⟩⟩⟩]
          [.writeFile [⟨1, [0xFF, 0x61], str "todo", ⟨5, ⟨str "GMT", 0⟩⟩,
              ⟨5, ⟨str "GMT", 0⟩⟩⟩],
            .readFile]) ∧
    ([0xEF, 0xBF, 0xBD, 0x61] : GoString) ≠ [0xFF, 0x61] ∧
    (⟨5, ⟨str "UTC", 0⟩⟩ : Time) ≠ ⟨5, ⟨str "GMT", 0⟩⟩ := by
  refine ⟨rfl, ?_, ?_⟩
  · decide
  · decide

/-- C8, amended: for every collection `c`, saving `c` with `saveTasks` and then loading
with `readTasks` returns a collection of the same length whose tasks, position by
position, have the same id, the same createdAt and updatedAt instants and zone offsets,
and the description and status coerced to valid UTF-8 (each invalid byte replaced by
U+FFFD), hence the same description and status whenever these are valid UTF-8; the zone
of a loaded timestamp is the one the decoder chooses for its offset. -/
theorem saveTasks_readTasks_roundTrip (loc : Int → Zone) (c : List Task) (f : FileState)
    (tr : List Event) :
    ∃ loaded : List Task,
      (saveTasks c { file := f, writeErr := none, localZone := loc, trace := tr }).bind
          (fun _ w => readTasks w) =
        .ok loaded (World.holding loc loaded (tr ++ [.writeFile c, .readFile])) ∧
      loaded.length = c.length ∧
      ∀ (i : Nat) (t : Task), c.get? i = some t →
        ∃ u : Task, loaded.get? i = some u ∧ u.ID = t.ID ∧
          u.Description = toValidUTF8 t.Description ∧
          u.Status = toValidUTF8 t.Status ∧
          (utf8Valid t.Description = true → u.Description = t.Description) ∧
          (utf8Valid t.Status = true → u.Status = t.Status) ∧
          u.CreatedAt.unixNano = t.CreatedAt.unixNano ∧
          u.CreatedAt.zone.offset = t.CreatedAt.zone.offset ∧
          u.CreatedAt.zone = decodeZone loc t.CreatedAt.unixNano t.CreatedAt.zone.offset ∧
          u.UpdatedAt.unixNano = t.UpdatedAt.unixNano ∧
          u.UpdatedAt.zone.offset = t.UpdatedAt.zone.offset ∧
          u.UpdatedAt.zone = decodeZone loc t.UpdatedAt.unixNano t.UpdatedAt.zone.offset := by
  refine ⟨c.map (jsonTask loc), ?_, by simp, ?_⟩
  · simp [saveTasks_ok, Step.bind, World.holding, readTasks_holds]
  · intro i t ht
    have hu : (c.map (jsonTask loc)).get? i = some (jsonTask loc t) := by
      simp only [List.get?_eq_getElem?, List.getElem?_map] at ht ⊢
      simp [ht]
    refine ⟨jsonTask loc t, hu, rfl, rfl, rfl, ?_, ?_, rfl,
      decodeZone_offset _ _ _, rfl, rfl, decodeZone_offset _ _ _, rfl⟩
    · intro hv
      exact toValidUTF8_of_valid _ hv
    · intro hv
      exact toValidUTF8_of_valid _ hv

theorem saveTasks_readTasks_roundTrip_witness :
    ∃ loaded : List Task,
      (saveTasks [⟨1, str "buy milk", str "todo", ⟨5, ⟨str "CET", 60⟩⟩, ⟨7, ⟨str "CET", 60⟩⟩⟩]
          { file := .missing, writeErr := none, localZone := fun _ => ⟨str "CET", 60⟩,
            trace := [] }).bind (fun _ w => readTasks w) =
        .ok loaded (World.holding (fun _ => ⟨str "CET", 60⟩) loaded
          ([] ++ [.writeFile [⟨1, str "buy milk", str "todo", ⟨5, ⟨str "CET", 60⟩⟩,
            ⟨7, ⟨str "CET", 60⟩⟩⟩], .readFile])) ∧
      loaded.length = 1 ∧
      ∃ u : Task, loaded.get? 0 = some u ∧ u.ID = 1 ∧
        u.Description = str "buy milk" ∧ u.Status = str "todo" ∧
        u.CreatedAt.unixNano = 5 ∧ u.CreatedAt.zone.offset = 60 ∧
        u.UpdatedAt.unixNano = 7 ∧ u.UpdatedAt.zone.offset = 60 := by
  obtain ⟨loaded, hrun, hlen, hall⟩ := saveTasks_readTasks_roundTrip
    (fun _ => ⟨str "CET", 60⟩)
    [⟨1, str "buy milk", str "todo", ⟨5, ⟨str "CET", 60⟩⟩, ⟨7, ⟨str "CET", 60⟩⟩⟩]
    .missing []
  obtain ⟨u, hu, hid, _, _, hd, hs, hc, hco, _, hup, huo, _⟩ := hall 0 _ rfl
  exact ⟨loaded, hrun, hlen, u, hu, hid, hd (by decide), hs (by decide), hc, hco, hup, huo⟩

/-- C9, as stated, fails when the clock does not advance between the two commands: with
the clock reading 20 at `add "buy milk"` and 10 at `mark-done 1` (a clock set back in
between), the task ends with createdAt 20 and updatedAt 10, so updatedAt is not greater
than createdAt. -/
theorem scenario_clock_set_back :
    (runAll [(.add (str "buy milk"), utcTime 20), (.markDone 1, utcTime 10)]
        (World.holding (fun _ => utcZone) [] [])).world.file =
      .holds [⟨1, str "buy milk", str "done", utcTime 20, utcTime 10⟩] ∧
    ∀ t ∈ (runAll [(.add (str "buy milk"), utcTime 20), (.markDone 1, utcTime 10)]
        (World.holding (fun _ => utcZone) [] [])).world.tasks,
      ¬ t.CreatedAt.unixNano < t.UpdatedAt.unixNano := by
  constructor
  · decide
  · decide

/-- C9, amended: starting from an empty collection (the file missing or holding an empty
array), `add "buy milk"` leaves one task with ID 1 and status "todo" and reports ID 1;
`mark-done 1` then leaves that task with status "done", its createdAt still the clock
reading of the add and its updatedAt the clock reading of the mark-done, so updatedAt is
greater than createdAt whenever the second reading is later than the first; `delete 1` then
leaves the empty collection. -/
theorem scenario_add_markDone_delete (loc : Int → Zone) (start : FileState)
    (tAdd tMark tDel : Time) (hstart : start = .missing ∨ start = .holds []) :
    ∃ (w1 w2 w3 : World) (a b : Task),
      (Op.add (str "buy milk")).exec tAdd
          { file := start, writeErr := none, localZone := loc, trace := [] } = .ok () w1 ∧
      w1.file = .holds [a] ∧ a.ID = 1 ∧ a.Status = str "todo" ∧
      a.Description = str "buy milk" ∧
      a.CreatedAt = jsonTime loc tAdd ∧ a.UpdatedAt = jsonTime loc tAdd ∧
      a.CreatedAt.unixNano = tAdd.unixNano ∧ a.UpdatedAt.unixNano = tAdd.unixNano ∧
      w1.trace.getLast? = some (.print (str "Task added successfully (ID: 1)\n")) ∧
      (Op.markDone 1).exec tMark w1 = .ok () w2 ∧
      w2.file = .holds [b] ∧ b.ID = 1 ∧ b.Description = str "buy milk" ∧
      b.Status = str "done" ∧
      b.CreatedAt = jsonTime loc tAdd ∧ b.UpdatedAt = jsonTime loc tMark ∧
      b.CreatedAt.unixNano = tAdd.unixNano ∧ b.UpdatedAt.unixNano = tMark.unixNano ∧
      (tAdd.unixNano < tMark.unixNano → b.CreatedAt.unixNano < b.UpdatedAt.unixNano) ∧
      (Op.delete 1).exec tDel w2 = .ok () w3 ∧
      w3.file = .holds [] := by
  have hs1 : toValidUTF8 (str "buy milk") = str "buy milk" := by decide
  have hs2 : toValidUTF8 (str "todo") = str "todo" := by decide
  have hs3 : toValidUTF8 (str "done") = str "done" := by decide
  have hmsg : str "Task added successfully (ID: " ++ str (toString (1 : Int)) ++ str ")\n" =
      str "Task added successfully (ID: 1)\n" := by decide
  have h1 : ∃ tr1 : List Event,
      (Op.add (str "buy milk")).exec tAdd
          { file := start, writeErr := none, localZone := loc, trace := [] } =
        .ok () (World.holding loc
          [⟨1, str "buy milk", str "todo", jsonTime loc tAdd, jsonTime loc tAdd⟩] tr1) ∧
      tr1.getLast? = some (.print (str "Task added successfully (ID: 1)\n")) := by
    rcases hstart with rfl | rfl
    · exact ⟨[.readFile, .print (str "tasks.json not found. Creating a new file...\n"),
        .writeFile [], .writeFile [⟨1, str "buy milk", str "todo", tAdd, tAdd⟩],
        .print (str "Task added successfully (ID: 1)\n")],
        by simp [Op.exec, addTask, readTasks, writeFile, saveTasks, World.emit, Step.bind,
          World.holding, jsonTask, hs1, hs2, hmsg], by simp⟩
    · exact ⟨[.readFile, .writeFile [⟨1, str "buy milk", str "todo", tAdd, tAdd⟩],
        .print (str "Task added successfully (ID: 1)\n")],
        by simp [Op.exec, addTask, readTasks, writeFile, saveTasks, World.emit, Step.bind,
          World.holding, jsonTask, hs1, hs2, hmsg], by simp⟩
  obtain ⟨tr1, hadd, hlast⟩ := h1
  have hmark := markTask_found 1 (str "done") tMark loc []
    ⟨1, str "buy milk", str "todo", jsonTime loc tAdd, jsonTime loc tAdd⟩ [] tr1
    (Or.inr rfl) (by simp) rfl
  simp only [List.nil_append, List.map_cons, List.map_nil, jsonTask, hs1, hs3,
    jsonTime_idem] at hmark
  have hdel := deleteTask_eq 1 loc
    [⟨1, str "buy milk", str "done", jsonTime loc tAdd, jsonTime loc tMark⟩]
    (tr1 ++ [.readFile,
      .writeFile [⟨1, str "buy milk", str "done", jsonTime loc tAdd, tMark⟩],
      .print (str "Task marked as '" ++ str "done" ++ str "' (ID: " ++
        str (toString (1 : Int)) ++ str ")\n")])
  exact ⟨_, _, _, ⟨1, str "buy milk", str "todo", jsonTime loc tAdd, jsonTime loc tAdd⟩,
    ⟨1, str "buy milk", str "done", jsonTime loc tAdd, jsonTime loc tMark⟩,
    hadd, rfl, rfl, rfl, rfl, rfl, rfl, rfl, rfl, hlast, hmark, rfl, rfl, rfl, rfl, rfl, rfl,
    rfl, rfl, fun h => h, hdel, rfl⟩

theorem scenario_add_markDone_delete_witness :
    ∃ (w1 w2 w3 : World) (a b : Task),
      (Op.add (str "buy milk")).exec (utcTime 10)
          { file := .missing, writeErr := none, localZone := fun _ => utcZone,
            trace := [] } = .ok () w1 ∧
      w1.file = .holds [a] ∧ a.ID = 1 ∧ a.Status = str "todo" ∧
      (Op.markDone 1).exec (utcTime 20) w1 = .ok () w2 ∧
      w2.file = .holds [b] ∧ b.ID = 1 ∧ b.Status = str "done" ∧
      b.CreatedAt.unixNano = 10 ∧ b.UpdatedAt.unixNano = 20 ∧
      b.CreatedAt.unixNano < b.UpdatedAt.unixNano ∧
      (Op.delete 1).exec (utcTime 30) w2 = .ok () w3 ∧
      w3.file = .holds [] := by
  obtain ⟨w1, w2, w3, a, b, hadd, hf1, hid, hst, _, _, _, _, _, _, hmark, hf2, hid2, _, hst2,
    _, _, hc, hu, hlt, hdel, hf3⟩ :=
    scenario_add_markDone_delete (fun _ => utcZone) .missing (utcTime 10) (utcTime 20)
      (utcTime 30) (Or.inl rfl)
  exact ⟨w1, w2, w3, a, b, hadd, hf1, hid, hst, hmark, hf2, hid2, hst2, hc, hu,
    hlt (by decide), hdel, hf3⟩

/-- C2, evaluated on the code: from the empty collection, add "a", add "b", delete 1,
add "c" ends with two tasks that both have ID 2, because the third add takes its ID from
the length of the collection, which is 1 again after the delete. -/
theorem ids_collide_after_delete :
    runAll [(.add (str "a"), utcTime 1), (.add (str "b"), utcTime 2), (.delete 1, utcTime 3),
          (.add (str "c"), utcTime 4)]
        (World.holding (fun _ => utcZone) [] []) =
      .ok () (World.holding (fun _ => utcZone)
        [⟨2, str "b", str "todo", utcTime 2, utcTime 2⟩,
          ⟨2, str "c", str "todo", utcTime 4, utcTime 4⟩]
        [.readFile, .writeFile [⟨1, str "a", str "todo", utcTime 1, utcTime 1⟩],
         .print (str "Task added successfully (ID: 1)\n"),
         .readFile,
         .writeFile [⟨1, str "a", str "todo", utcTime 1, utcTime 1⟩,
           ⟨2, str "b", str "todo", utcTime 2, utcTime 2⟩],
         .print (str "Task added successfully (ID: 2)\n"),
         .readFile, .writeFile [⟨2, str "b", str "todo", utcTime 2, utcTime 2⟩],
         .print (str "Task deleted successfully (ID: 1)\n"),
         .readFile,
         .writeFile [⟨2, str "b", str "todo", utcTime 2, utcTime 2⟩,
           ⟨2, str "c", str "todo", utcTime 4, utcTime 4⟩],
         .print (str "Task added successfully (ID: 2)\n")]) ∧
    ¬ ((runAll [(.add (str "a"), utcTime 1), (.add (str "b"), utcTime 2),
          (.delete 1, utcTime 3), (.add (str "c"), utcTime 4)]
        (World.holding (fun _ => utcZone) [] [])).world.tasks.map Task.ID).Nodup := by
  constructor
  · rfl
  · decide

end TaskTracker
